import Mathlib

/-!
# Verification of the dtRemoteSensing repository

Shallow embedding of the `dtSat` and `dtAcolite` Python modules.
Pure string/regex helpers are modelled directly; stateful functions
(HTTP requests, filesystem mutation) are modelled by explicit
environments (response oracles, directory listings) and by returning
the list of observable actions they perform, in order.
-/

namespace DtRS

/-! ## Regex helpers (dtSat.py, dtAcolite.py)

Python `re.search` is leftmost-first with greedy quantifiers.  Each
pattern used by the repository is simple enough to model directly.
`.` in Python does not match a newline; where `.*` occurs we cut the
candidate text at the first newline. -/

/-- `re.search("R[0-9]*", x)` from `extract_orbit` (dtSat.py:354):
the leftmost `R` always matches (zero digits allowed), extended
greedily over following digits. -/
def searchOrbit : List Char → Option (List Char)
  | [] => none
  | c :: cs =>
    if c = 'R' then some ('R' :: cs.takeWhile Char.isDigit)
    else searchOrbit cs

/-- dtSat.py:346 `extract_orbit`: `re.search("R[0-9]*", x).group(0)`;
`none` models the `AttributeError` raised when there is no match. -/
def extract_orbit (x : String) : Option String :=
  (searchOrbit x.data).map List.asString

/-- Match of `T[0-9]{2}[A-Z]{3}` anchored at the head of the list. -/
def tileMatchAt : List Char → Option (List Char)
  | t :: a :: b :: x :: y :: z :: _ =>
    if t = 'T' ∧ a.isDigit ∧ b.isDigit ∧ x.isUpper ∧ y.isUpper ∧ z.isUpper then
      some [t, a, b, x, y, z]
    else none
  | _ => none

/-- Leftmost match of `T[0-9]{2}[A-Z]{3}`. -/
def searchTile : List Char → Option (List Char)
  | [] => none
  | c :: cs =>
    match tileMatchAt (c :: cs) with
    | some m => some m
    | none => searchTile cs

/-- dtSat.py:356 `extract_tile`: `re.search("T[0-9]{2}[A-Z]{3}", x).group(0)`. -/
def extract_tile (x : String) : Option String :=
  (searchTile x.data).map List.asString

/-- Match of `[0-9]{4}-[0-9]{2}-[0-9]{2}` anchored at the head. -/
def dateMatchAt : List Char → Option (List Char)
  | a :: b :: c :: d :: h1 :: e :: f :: h2 :: g :: i :: _ =>
    if a.isDigit ∧ b.isDigit ∧ c.isDigit ∧ d.isDigit ∧ h1 = '-' ∧
       e.isDigit ∧ f.isDigit ∧ h2 = '-' ∧ g.isDigit ∧ i.isDigit then
      some [a, b, c, d, h1, e, f, h2, g, i]
    else none
  | _ => none

/-- Leftmost match of `[0-9]{4}-[0-9]{2}-[0-9]{2}`. -/
def searchDate : List Char → Option (List Char)
  | [] => none
  | c :: cs =>
    match dateMatchAt (c :: cs) with
    | some m => some m
    | none => searchDate cs

/-- dtSat.py:293 `get_date`: `re.search("[0-9]{4}-[0-9]{2}-[0-9]{2}", date_str).group(0)`. -/
def get_date (s : String) : Option String :=
  (searchDate s.data).map List.asString

/-- Longest prefix ending at the last `'E'` of the list (`none` if no `'E'`).
This is the greedy `.*E` tail of the `S2.*E` pattern. -/
def upToLastE : List Char → Option (List Char)
  | [] => none
  | c :: cs =>
    match upToLastE cs with
    | some t => some (c :: t)
    | none => if c = 'E' then some [c] else none

/-- Match of `S2.*E` anchored at the head: `S`, `2`, then greedily up to
the last `E` before the end of the line. -/
def s2MatchAt : List Char → Option (List Char)
  | s :: t :: rest =>
    if s = 'S' ∧ t = '2' then
      (upToLastE (rest.takeWhile (fun c => c ≠ '\n'))).map
        (fun m => s :: t :: m)
    else none
  | _ => none

/-- Leftmost match of `S2.*E` (dtAcolite.py:219). -/
def searchS2E : List Char → Option (List Char)
  | [] => none
  | c :: cs =>
    match s2MatchAt (c :: cs) with
    | some m => some m
    | none => searchS2E cs

/-- Python `s.split(".")[0]`: the prefix before the first `'.'`. -/
def splitDot (s : String) : String :=
  (s.data.takeWhile (fun c => c ≠ '.')).asString

/-- Python `s.split(".z")[0]`: the prefix before the first occurrence of
the two-character substring `".z"`. -/
def splitDotZ : List Char → List Char
  | [] => []
  | [c] => [c]
  | c :: c2 :: cs => if c = '.' ∧ c2 = 'z' then [] else c :: splitDotZ (c2 :: cs)

/-! ## Catalogue data model (dtSat.py)

A catalogue response is the JSON object returned by the OData endpoint:
a `value` list of tile entries and an optional `@odata.nextLink`
pagination URL.  HTTP `GET` is modelled by an oracle
`env : String → CatResponse` mapping a request URL to the decoded JSON
body; the requests a function issues are returned as a list of URLs in
order. -/

/-- One entry of the `value` list of a catalogue response. -/
structure Tile where
  Id : String
  Name : String
  OriginDate : String
  deriving DecidableEq, Repr

/-- Decoded catalogue JSON: `value` and optional `@odata.nextLink`. -/
structure CatResponse where
  value : List Tile
  nextLink : Option String
  deriving DecidableEq, Repr

/-- Digits to a number, for date parsing. -/
def digitsToNat (cs : List Char) : Nat :=
  cs.foldl (fun n c => 10 * n + (c.toNat - 48)) 0

/-- Split a character list at every dash. -/
def splitDash : List Char → List (List Char)
  | [] => [[]]
  | c :: cs =>
    let r := splitDash cs
    if c = '-' then [] :: r
    else
      match r with
      | h :: t => (c :: h) :: t
      | [] => [[c]]

/-- `datetime.datetime.strptime(s, "%Y-%m-%d").date()` (dtSat.py:87):
`none` models the `ValueError` raised on a malformed string.  Day
validity within the month is approximated by `d ≤ 31`; no claim
depends on the finer per-month check. -/
def parseDate (s : String) : Option (Nat × Nat × Nat) :=
  match splitDash s.data with
  | [y, m, d] =>
    if y.length = 4 ∧ m.length = 2 ∧ d.length = 2 ∧
       y.all Char.isDigit ∧ m.all Char.isDigit ∧ d.all Char.isDigit ∧
       1 ≤ digitsToNat m ∧ digitsToNat m ≤ 12 ∧
       1 ≤ digitsToNat d ∧ digitsToNat d ≤ 31 then
      some (digitsToNat y, digitsToNat m, digitsToNat d)
    else none
  | _ => none

/-- Chronological order on parsed dates (`datetime.date` comparison is
lexicographic on year, month, day). -/
def dateLt (a b : Nat × Nat × Nat) : Bool :=
  decide (a.1 < b.1 ∨ (a.1 = b.1 ∧ (a.2.1 < b.2.1 ∨ (a.2.1 = b.2.1 ∧ a.2.2 < b.2.2))))

/-- A single-quote character, used inside the OData filter string. -/
def sq : String := (Char.ofNat 39).toString

/-- The OData query URL built at dtSat.py:95-100.  `cloudcover` is the
decimal rendering of the Python float (e.g. `10.0`); its formatting is
not load-bearing for any claim, so it is taken as a string. -/
def catalogue_endpoint_url (data_collection aoi product_type cloudcover
    start_date end_date : String) : String :=
  "https://catalogue.dataspace.copernicus.eu/odata/v1/Products?$filter=Collection/Name eq "
    ++ sq ++ data_collection ++ sq
    ++ " and Attributes/OData.CSC.DoubleAttribute/any(att:att/Name eq "
    ++ sq ++ "cloudCover" ++ sq
    ++ " and att/OData.CSC.DoubleAttribute/Value lt " ++ cloudcover ++ ")"
    ++ " and Attributes/OData.CSC.StringAttribute/any(att:att/Name eq "
    ++ sq ++ "productType" ++ sq
    ++ " and att/OData.CSC.StringAttribute/Value eq " ++ sq ++ product_type ++ sq ++ ")"
    ++ " and OData.CSC.Intersects(area=geography" ++ sq ++ "SRID=4326;" ++ aoi ++ ")"
    ++ " and ContentDate/Start gt " ++ start_date ++ "T00:00:00.000Z"
    ++ " and ContentDate/Start lt " ++ end_date
    ++ "T00:00:00.000Z&$orderby=ContentDate/Start desc"

/-- dtSat.py:102-103: append the result cap only when `max_results` is
given and `(max_results > 0) & (max_results <= 1000)`. -/
def top_suffix (max_results : Option Int) : String :=
  match max_results with
  | none => ""
  | some m => if 0 < m ∧ m ≤ 1000 then "&$top=" ++ toString m else ""

/-- The supported collections (dtSat.py:92). -/
def copernicus_catalogue : List String := ["SENTINEL-2", "SENTINEL-3", "LANDSAT-8"]

/-- The pagination loop at dtSat.py:114-117:
`while nextLink in results: results = get(nextLink).json()`.
Returns the final `results` value together with the page URLs fetched,
in order; `none` if `fuel` runs out before the chain ends (the Python
loop would still be running). -/
def followNext (env : String → CatResponse) : Nat → CatResponse →
    Option CatResponse × List String
  | 0, r =>
    match r.nextLink with
    | none => (some r, [])
    | some _ => (none, [])
  | fuel + 1, r =>
    match r.nextLink with
    | none => (some r, [])
    | some url =>
      let p := followNext env fuel (env url)
      (p.1, url :: p.2)

/-- `ChainSpec env r links`: starting from response `r`, the next-page
links encountered are exactly `links`, and the page reached after the
last of them has no next link. -/
def ChainSpec (env : String → CatResponse) : CatResponse → List String → Prop
  | r, [] => r.nextLink = none
  | r, l :: ls => r.nextLink = some l ∧ ChainSpec env (env l) ls

/-- The page reached after following every link of the chain. -/
def finalPage (env : String → CatResponse) : CatResponse → List String → CatResponse
  | r, [] => r
  | _, l :: ls => finalPage env (env l) ls

/-- dtSat.py:67-120 `get_sentinel_catalogue`.  Output: the returned
JSON (or the raised error message) paired with the list of catalogue
request URLs issued, in order. -/
def get_sentinel_catalogue (env : String → CatResponse) (fuel : Nat)
    (start_date end_date data_collection aoi product_type cloudcover : String)
    (max_results : Option Int) :
    Except String CatResponse × List String :=
  match parseDate start_date with
  | none => (Except.error "ValueError: unparseable start_date", [])
  | some s =>
    match parseDate end_date with
    | none => (Except.error "ValueError: unparseable end_date", [])
    | some e =>
      if dateLt s e then
        if copernicus_catalogue.contains data_collection then
          let url := catalogue_endpoint_url data_collection aoi product_type
              cloudcover start_date end_date ++ top_suffix max_results
          let p := followNext env fuel (env url)
          match p.1 with
          | none => (Except.error "loop still running", url :: p.2)
          | some r => (Except.ok r, url :: p.2)
        else
          (Except.error "data collection type not presence in catalogue/not implemented yet. ", [])
      else
        (Except.error "End date must be greater than Start date.", [])

/-- A two-page environment: the first request returns one tile and a
next-page link `n1`; fetching `n1` returns a different single tile and
no next link. -/
def envC1 : String → CatResponse := fun l =>
  if l = "n1" then ⟨[⟨"idB", "nmB", "2022-06-02T00:00:00.000Z"⟩], none⟩
  else ⟨[⟨"idA", "nmA", "2022-06-01T00:00:00.000Z"⟩], some "n1"⟩

/-- The query URL of the two-page counterexample run. -/
def urlC1 : String :=
  catalogue_endpoint_url "SENTINEL-2" "aoi" "S2MSI1C" "10.0" "2022-06-01" "2022-06-10"

/-! ## Download orchestrator (dtSat.py data_sentinel_request)

HTTP downloading is modelled by an oracle giving, per tile Id, the
response of the first `session.get` (redirects off) and the response
of the retried `session.get` after a refresh-token re-authentication
(redirects on).  The orchestrator returns the list of observable
actions it performs, in order. -/

/-- Python `s.endswith(suf)`. -/
def endswith (s suf : String) : Bool := decide (suf.data <:+ s.data)

/-- A streamed HTTP download response: status code and body chunks. -/
structure Resp where
  status : Nat
  chunks : List String
  deriving DecidableEq, Repr

/-- Response oracle for the download loop. -/
structure DlEnv where
  firstResp : String → Resp
  retryResp : String → Resp

/-- Observable actions of the download orchestrator. -/
inductive Act where
  | mkDir (path : String)
  | getTile (id : String)
  | postRefresh
  | writeFile (path : String) (chunks : List String)
  deriving DecidableEq, Repr

/-- The statuses that trigger the one-shot re-authentication
(dtSat.py:240). -/
def retry_statuses : List Nat := [301, 302, 303, 307, 401]

/-- dtSat.py:262-272: the path the tile is stored at.  Only the Linux
branch of the platform check is modelled and `os.path.abspath` is
treated as the identity on the abstract path names; the `None`
dir_path (which raises in `os.path.exists` before any download) is not
modelled. -/
def fileStorePath (dir_path name : String) : String :=
  if dir_path = "" then "./inputdir/" ++ name ++ ".zip"
  else dir_path ++ "/" ++ name ++ ".zip"

/-- The body of the download loop for one non-skipped tile
(dtSat.py:238-277): first request; on a 301/302/303/307/401 status one
refresh-token POST and exactly one retried request; a 400 status is
only printed; finally the response body (non-empty chunks) is written
to the tile file.  In the `dir_path = ""` case the source also runs
`os.makedirs("./inputdir/")` (its `FileExistsError` on a second tile
is not modelled). -/
def processTile (env : DlEnv) (dir_path : String) (tile : Tile) : List Act :=
  let r1 := env.firstResp tile.Id
  let doRetry := retry_statuses.contains r1.status
  let retryActs : List Act :=
    if doRetry then [Act.postRefresh, Act.getTile tile.Id] else []
  let finalResp := if doRetry then env.retryResp tile.Id else r1
  let mk : List Act := if dir_path = "" then [Act.mkDir "./inputdir/"] else []
  [Act.getTile tile.Id] ++ retryActs ++ mk ++
    [Act.writeFile (fileStorePath dir_path tile.Name)
      (finalResp.chunks.filter (fun c => ¬ c = ""))]

/-- dtSat.py:216-220: the unique-by-OriginDate tile list.  Python
takes, for each distinct date string of the catalogue, the tile at the
first index carrying it; the set iteration order only permutes the
result and is fixed here to first-occurrence order.  It is computed
and bound but never read by the download loop. -/
def uniqueTilesAux (seen : List (Option String)) : List Tile → List Tile
  | [] => []
  | t :: ts =>
    let d := get_date t.OriginDate
    if d ∈ seen then uniqueTilesAux seen ts
    else t :: uniqueTilesAux (d :: seen) ts

/-- First tile per distinct acquisition date. -/
def uniqueTiles (ts : List Tile) : List Tile := uniqueTilesAux [] ts

/-- dtSat.py:228: names already present in the destination directory,
zip files only, truncated at their first dot. -/
def files_in_dir (dirListing : List String) : List String :=
  (dirListing.filter (fun f => endswith f ".zip")).map splitDot

/-- The tiles the download loop does not `continue` past
(dtSat.py:231-236). -/
def selectedTiles (dirListing : List String) (cat : CatResponse) : List Tile :=
  cat.value.filter (fun t => (files_in_dir dirListing).contains t.Name = false)

/-- dtSat.py:190-280 `data_sentinel_request`.  `dirExists` is
`os.path.exists(dir_path)`; `dirListing` is `os.listdir(dir_path)`.
The `get_date` call at line 216 raises an `AttributeError` when some
OriginDate carries no date substring, modelled as the error case. -/
def data_sentinel_request (env : DlEnv) (dir_path : String) (dirExists : Bool)
    (dirListing : List String) (cat : CatResponse) : Except String (List Act) :=
  if cat.value.all (fun t => (get_date t.OriginDate).isSome) = false then
    Except.error "AttributeError: no date in OriginDate"
  else
    let _unique := uniqueTiles cat.value
    let mk : List Act := if dirExists = false then [Act.mkDir dir_path] else []
    Except.ok (mk ++
      (selectedTiles dirListing cat).flatMap (processTile env dir_path))

/-! ## Archive stager (dtAcolite.py unzip_inputfiles) -/

/-- The comprehension body of dtAcolite.py:219, over the listed paths
in order: a path is kept when it ends in `.zip` and its derived scene
identifier (the `S2.*E` match of the path truncated at its first
`.z`) is not an entry of the output directory; a `.zip` path with no
match raises (`.group(0)` on `None`), modelled as the error case. -/
def unzip_scene_filter (outListing : List String) : List String → Except Unit (List String)
  | [] => Except.ok []
  | f :: rest =>
    if endswith f ".zip" then
      match searchS2E (splitDotZ f.data) with
      | none => Except.error ()
      | some m =>
        match unzip_scene_filter outListing rest with
        | Except.error e => Except.error e
        | Except.ok keep =>
          if outListing.contains m.asString = false then Except.ok (f :: keep)
          else Except.ok keep
    else unzip_scene_filter outListing rest

/-- dtAcolite.py:182-224 `unzip_inputfiles`: lists the raw input
directory, prefixes each entry with `<inputdir>/`, keeps the zip
archives whose derived identifier is not yet an entry in the output
directory, and extracts each of them into the output directory.
Returns the extracted archive paths, in order. -/
def unzip_inputfiles (listing : String → List String) (inputdir : String)
    (outputdir : Option String) : Except Unit (List String) :=
  let outdir := match outputdir with | none => inputdir | some d => d
  let raw_scenes := (listing inputdir).map (fun f => inputdir ++ "/" ++ f)
  unzip_scene_filter (listing outdir) raw_scenes

/-- The keep test of dtAcolite.py:219 expressed on the raw filename
alone (valid when the directory prefix holds no `S` and no dot). -/
def sceneKeep (outListing : List String) (f : String) : Bool :=
  endswith f ".zip" &&
    (match searchS2E (splitDotZ f.data) with
     | none => false
     | some m => !(outListing.contains m.asString))

/-! ## Directory layout manager (dtAcolite.py)

The filesystem is modelled as the list of existing paths; `os.makedirs`
conses the new path (parent creation is not observable to any claim).
`os.listdir` is a separate oracle `listing : String → List String`
giving the entries of a directory; no claim creates entries in a
directory it also lists. -/

/-- `os.makedirs(p)`. -/
def makedirs (p : String) (fs : List String) : List String := p :: fs

/-- The `if not os.path.exists(d): os.makedirs(d)` pattern. -/
def ensureDir (p : String) (fs : List String) : List String :=
  if p ∈ fs then fs else makedirs p fs

/-- The mapping returned by `configure_acolite_directory`
(dtAcolite.py:69-75). -/
structure AppConfiguration where
  year : Int
  collection : String
  raw_inputdir : String
  acolite_inputdir : String
  acolite_outputdir : String
  deriving DecidableEq, Repr

/-- Python return value of `configure_acolite_directory`: an error
message string for a missing argument, or the configuration mapping. -/
inductive ConfigResult where
  | msg (s : String)
  | config (c : AppConfiguration)
  deriving DecidableEq, Repr

/-- dtAcolite.py:13-77 `configure_acolite_directory`.  A missing
argument is its falsy value (`""` for the strings, `0` for the year);
the function is run against filesystem `fs` and returns the new
filesystem. -/
def configure_acolite_directory (fs : List String)
    (base_dir collection : String) (year : Int) :
    ConfigResult × List String :=
  if base_dir = "" then
    (ConfigResult.msg
      "Please provide the base directory where you want the processing to be done. ", fs)
  else if collection = "" then
    (ConfigResult.msg
      ("Please provide the satellite collection: either " ++ sq ++ "sentinel"
        ++ sq ++ " or " ++ sq ++ "landsat" ++ sq), fs)
  else if year = 0 then
    (ConfigResult.msg "Please provide the year of the collection. ", fs)
  else
    let raw_inputdir :=
      base_dir ++ "/app_acolite/raw/" ++ collection ++ "/" ++ toString year
    let acolite_inputdir :=
      base_dir ++ "/app_acolite/processed/inputdir/" ++ collection ++ "/" ++ toString year
    let acolite_outputdir :=
      base_dir ++ "/app_acolite/processed/outputdir/" ++ collection ++ "/" ++ toString year
    let fs3 := ensureDir acolite_outputdir (ensureDir acolite_inputdir (ensureDir raw_inputdir fs))
    (ConfigResult.config
      ⟨year, collection, raw_inputdir, acolite_inputdir, acolite_outputdir⟩, fs3)

/-- Python return value of `create_acolite_input`: `None` for an
unsupported collection, a message string for a missing directory, or
the list of extension-stripped zip names. -/
inductive InputResult where
  | noneRet
  | msg (s : String)
  | files (names : List String)
  deriving DecidableEq, Repr

/-- dtAcolite.py:80-128 `create_acolite_input`. -/
def create_acolite_input (fs : List String) (listing : String → List String)
    (cfg : AppConfiguration) : InputResult × List String :=
  if (["sentinel", "landsat"] : List String).contains cfg.collection = false then
    (InputResult.noneRet, fs)
  else if cfg.raw_inputdir = "" then
    (InputResult.msg "Please provide the location of the input files.", fs)
  else if cfg.acolite_inputdir = "" then
    (InputResult.msg "Please provide the location of the input files.", fs)
  else
    let filenames :=
      ((listing cfg.raw_inputdir).filter (fun f => endswith f ".zip")).map splitDot
    (InputResult.files filenames, ensureDir cfg.acolite_inputdir fs)

/-- dtAcolite.py:130-180 `create_acolite_output`: `none` models the
Python `None` returned for an unsupported collection; otherwise one
output path per filename is derived and created if missing. -/
def create_acolite_output (fs : List String) (filenames : List String)
    (cfg : AppConfiguration) : Option (List String) × List String :=
  if (["sentinel", "landsat"] : List String).contains cfg.collection = false then
    (none, fs)
  else
    let fs1 := if cfg.acolite_outputdir ∈ fs then fs else makedirs cfg.acolite_outputdir fs
    let step := filenames.foldl
      (fun (acc : List String × List String) f =>
        let filepath := cfg.acolite_outputdir ++ "/" ++ f
        (acc.1 ++ [filepath], ensureDir filepath acc.2))
      ([], fs1)
    (some step.1, step.2)

end DtRS

namespace DtRS

/-- The pagination loop on a chain of pages returns the final page and
fetches exactly the links of the chain, in order. -/
theorem followNext_chain (env : String → CatResponse) :
    ∀ (links : List String) (r : CatResponse) (fuel : Nat),
    ChainSpec env r links → links.length ≤ fuel →
    followNext env fuel r = (some (finalPage env r links), links) := by
  intro links
  induction links with
  | nil =>
    intro r fuel h _
    cases fuel with
    | zero => simp only [ChainSpec] at h; simp [followNext, h, finalPage]
    | succ n => simp only [ChainSpec] at h; simp [followNext, h, finalPage]
  | cons l ls ih =>
    intro r fuel h hf
    cases fuel with
    | zero => simp at hf
    | succ n =>
      obtain ⟨h1, h2⟩ := h
      have hrec := ih (env l) n h2 (Nat.le_of_succ_le_succ hf)
      simp [followNext, h1, finalPage, hrec]

/-- On a chain, the final page carries no next-page link. -/
theorem finalPage_nextLink (env : String → CatResponse) :
    ∀ (links : List String) (r : CatResponse),
    ChainSpec env r links → (finalPage env r links).nextLink = none := by
  intro links
  induction links with
  | nil => intro r h; exact h
  | cons l ls ih => intro r h; exact ih (env l) h.2

end DtRS

/-- C1 (counterexample): a query whose first response carries a
next-page link, with two pages holding one tile each (total `2`), for
which `get_sentinel_catalogue` returns a value list of length `1` — the
pages are not accumulated. -/
theorem C1_counterexample :
    (DtRS.envC1 DtRS.urlC1).nextLink = some "n1" ∧
    (DtRS.envC1 DtRS.urlC1).value.length + (DtRS.envC1 "n1").value.length = 2 ∧
    (DtRS.get_sentinel_catalogue DtRS.envC1 5 "2022-06-01" "2022-06-10"
        "SENTINEL-2" "aoi" "S2MSI1C" "10.0" none).1.map
      (fun r => r.value.length) = Except.ok 1 :=
  ⟨rfl, rfl, rfl⟩

/-- C1 (amended): when the first response starts a chain of next-page
links, `get_sentinel_catalogue` requests exactly the initial URL
followed by each next-page link (so no request is issued once
`@odata.nextLink` is absent), but returns only the final page of the
chain rather than an accumulation of all pages. -/
theorem C1_last_page_only (env : String → DtRS.CatResponse) (fuel : Nat)
    (sd ed dc aoi pt cc : String) (mr : Option Int) (s e : Nat × Nat × Nat)
    (links : List String)
    (hs : DtRS.parseDate sd = some s) (he : DtRS.parseDate ed = some e)
    (hlt : DtRS.dateLt s e = true)
    (hdc : DtRS.copernicus_catalogue.contains dc = true)
    (hchain : DtRS.ChainSpec env
      (env (DtRS.catalogue_endpoint_url dc aoi pt cc sd ed ++ DtRS.top_suffix mr)) links)
    (hfuel : links.length ≤ fuel) :
    DtRS.get_sentinel_catalogue env fuel sd ed dc aoi pt cc mr =
      (Except.ok (DtRS.finalPage env
          (env (DtRS.catalogue_endpoint_url dc aoi pt cc sd ed ++ DtRS.top_suffix mr)) links),
       (DtRS.catalogue_endpoint_url dc aoi pt cc sd ed ++ DtRS.top_suffix mr) :: links) ∧
    (DtRS.finalPage env
        (env (DtRS.catalogue_endpoint_url dc aoi pt cc sd ed ++ DtRS.top_suffix mr))
        links).nextLink = none := by
  have hdc' : dc ∈ DtRS.copernicus_catalogue := by simpa using hdc
  constructor
  · simp [DtRS.get_sentinel_catalogue, hs, he, hlt, hdc',
      DtRS.followNext_chain env links _ fuel hchain hfuel]
  · exact DtRS.finalPage_nextLink env links _ hchain

/-- C1 (witness): the amended theorem evaluated on the concrete
two-page environment. -/
theorem C1_witness :
    DtRS.get_sentinel_catalogue DtRS.envC1 5 "2022-06-01" "2022-06-10"
        "SENTINEL-2" "aoi" "S2MSI1C" "10.0" none =
      (Except.ok ⟨[⟨"idB", "nmB", "2022-06-02T00:00:00.000Z"⟩], none⟩,
       [DtRS.urlC1 ++ DtRS.top_suffix none, "n1"]) := by
  have h := C1_last_page_only DtRS.envC1 5 "2022-06-01" "2022-06-10"
    "SENTINEL-2" "aoi" "S2MSI1C" "10.0" none (2022, 6, 1) (2022, 6, 10)
    ["n1"] rfl rfl rfl rfl ⟨rfl, rfl⟩ (by decide)
  exact h.1

/-- C5: with end_date not strictly after start_date the catalogue
client raises (an error result) and issues no request; likewise for a
collection outside the supported set. -/
theorem C5_validation_before_request (env : String → DtRS.CatResponse) (fuel : Nat)
    (sd ed dc aoi pt cc : String) (mr : Option Int) :
    (∀ s e, DtRS.parseDate sd = some s → DtRS.parseDate ed = some e →
       DtRS.dateLt s e = false →
       (∃ msg, (DtRS.get_sentinel_catalogue env fuel sd ed dc aoi pt cc mr).1 =
          Except.error msg) ∧
       (DtRS.get_sentinel_catalogue env fuel sd ed dc aoi pt cc mr).2 = []) ∧
    (DtRS.copernicus_catalogue.contains dc = false →
       (∃ msg, (DtRS.get_sentinel_catalogue env fuel sd ed dc aoi pt cc mr).1 =
          Except.error msg) ∧
       (DtRS.get_sentinel_catalogue env fuel sd ed dc aoi pt cc mr).2 = []) := by
  constructor
  · intro s e hs he hlt
    simp [DtRS.get_sentinel_catalogue, hs, he, hlt]
  · intro hdc
    cases hps : DtRS.parseDate sd with
    | none => simp [DtRS.get_sentinel_catalogue, hps]
    | some s =>
      cases hpe : DtRS.parseDate ed with
      | none => simp [DtRS.get_sentinel_catalogue, hps, hpe]
      | some e =>
        have hdc' : ¬ dc ∈ DtRS.copernicus_catalogue := by simpa using hdc
        by_cases hlt : DtRS.dateLt s e = true
        · simp [DtRS.get_sentinel_catalogue, hps, hpe, hlt, hdc']
        · simp [DtRS.get_sentinel_catalogue, hps, hpe,
            Bool.not_eq_true _ ▸ hlt]

/-- C5 (witness): concrete runs hitting both validation failures. -/
theorem C5_witness :
    ((∃ msg, (DtRS.get_sentinel_catalogue (fun _ => ⟨[], none⟩) 1 "2022-06-10"
        "2022-06-01" "SENTINEL-2" "aoi" "S2MSI1C" "10.0" none).1 =
        Except.error msg) ∧
     (DtRS.get_sentinel_catalogue (fun _ => ⟨[], none⟩) 1 "2022-06-10"
        "2022-06-01" "SENTINEL-2" "aoi" "S2MSI1C" "10.0" none).2 = []) ∧
    ((∃ msg, (DtRS.get_sentinel_catalogue (fun _ => ⟨[], none⟩) 1 "2022-06-01"
        "2022-06-10" "MODIS" "aoi" "S2MSI1C" "10.0" none).1 =
        Except.error msg) ∧
     (DtRS.get_sentinel_catalogue (fun _ => ⟨[], none⟩) 1 "2022-06-01"
        "2022-06-10" "MODIS" "aoi" "S2MSI1C" "10.0" none).2 = []) := by
  constructor
  · exact (C5_validation_before_request (fun _ => ⟨[], none⟩) 1 "2022-06-10"
      "2022-06-01" "SENTINEL-2" "aoi" "S2MSI1C" "10.0" none).1
      (2022, 6, 10) (2022, 6, 1) rfl rfl rfl
  · exact (C5_validation_before_request (fun _ => ⟨[], none⟩) 1 "2022-06-01"
      "2022-06-10" "MODIS" "aoi" "S2MSI1C" "10.0" none).2 rfl

namespace DtRS

/-- A directory just ensured exists afterwards. -/
theorem mem_ensureDir_self (p : String) (fs : List String) : p ∈ ensureDir p fs := by
  unfold ensureDir makedirs
  by_cases h : p ∈ fs <;> simp [h]

/-- `ensureDir` preserves existing paths. -/
theorem mem_ensureDir_of_mem {q : String} (p : String) {fs : List String}
    (h : q ∈ fs) : q ∈ ensureDir p fs := by
  unfold ensureDir makedirs
  by_cases hp : p ∈ fs <;> simp [hp, h]

/-- `ensureDir` is a no-op on an existing path. -/
theorem ensureDir_of_mem {p : String} {fs : List String} (h : p ∈ fs) :
    ensureDir p fs = fs := by
  simp [ensureDir, h]

/-- Re-running the three-directory creation sequence is a no-op. -/
theorem ensureDir_idem3 (r a o : String) (fs : List String) :
    ensureDir o (ensureDir a (ensureDir r (ensureDir o (ensureDir a (ensureDir r fs))))) =
      ensureDir o (ensureDir a (ensureDir r fs)) := by
  have hr : r ∈ ensureDir o (ensureDir a (ensureDir r fs)) :=
    mem_ensureDir_of_mem _ (mem_ensureDir_of_mem _ (mem_ensureDir_self _ _))
  rw [ensureDir_of_mem hr]
  have ha : a ∈ ensureDir o (ensureDir a (ensureDir r fs)) :=
    mem_ensureDir_of_mem _ (mem_ensureDir_self _ _)
  rw [ensureDir_of_mem ha]
  exact ensureDir_of_mem (mem_ensureDir_self _ _)

end DtRS

/-- C3 (counterexample): `configure_acolite_directory` performs no
membership check on the collection: called with collection `modis`
(outside {sentinel, landsat}) on an empty filesystem it returns a full
configuration mapping and creates all three directories. -/
theorem C3_counterexample :
    DtRS.configure_acolite_directory [] "base" "modis" 2021 =
      (DtRS.ConfigResult.config ⟨2021, "modis",
        "base/app_acolite/raw/modis/2021",
        "base/app_acolite/processed/inputdir/modis/2021",
        "base/app_acolite/processed/outputdir/modis/2021"⟩,
       ["base/app_acolite/processed/outputdir/modis/2021",
        "base/app_acolite/processed/inputdir/modis/2021",
        "base/app_acolite/raw/modis/2021"]) := by rfl

/-- C3 (amended): for a collection outside {sentinel, landsat},
`create_acolite_input` and `create_acolite_output` return the Python
`None` sentinel and leave the filesystem unchanged;
`configure_acolite_directory` checks only that the collection argument
is non-empty and is exempt from the property. -/
theorem C3_input_output_guard (fs : List String) (listing : String → List String)
    (filenames : List String) (cfg : DtRS.AppConfiguration)
    (hc : (["sentinel", "landsat"] : List String).contains cfg.collection = false) :
    DtRS.create_acolite_input fs listing cfg = (DtRS.InputResult.noneRet, fs) ∧
    DtRS.create_acolite_output fs filenames cfg = (none, fs) := by
  have hc' := hc
  simp at hc'
  constructor <;>
    simp [DtRS.create_acolite_input, DtRS.create_acolite_output, hc, hc']

/-- C3 (witness): the guard evaluated for the collection `modis`. -/
theorem C3_witness :
    DtRS.create_acolite_input [] (fun _ => []) ⟨2021, "modis", "r", "i", "o"⟩ =
      (DtRS.InputResult.noneRet, []) ∧
    DtRS.create_acolite_output [] ["f1"] ⟨2021, "modis", "r", "i", "o"⟩ =
      (none, []) :=
  C3_input_output_guard [] (fun _ => []) ["f1"] ⟨2021, "modis", "r", "i", "o"⟩ rfl

/-- C7: for a collection in {sentinel, landsat}, running
`configure_acolite_directory` twice returns the same value both times
and the second run leaves the filesystem unchanged. -/
theorem C7_configure_idempotent (fs : List String) (base_dir collection : String)
    (year : Int) (hc : collection = "sentinel" ∨ collection = "landsat") :
    DtRS.configure_acolite_directory
        (DtRS.configure_acolite_directory fs base_dir collection year).2
        base_dir collection year =
      DtRS.configure_acolite_directory fs base_dir collection year := by
  have h2 : ¬ collection = "" := by
    rcases hc with h | h <;> simp [h]
  by_cases h1 : base_dir = ""
  · simp [DtRS.configure_acolite_directory, h1]
  by_cases h3 : year = 0
  · simp [DtRS.configure_acolite_directory, h1, h2, h3]
  · simp only [DtRS.configure_acolite_directory, h1, h2, h3, if_false, ite_false]
    simp [DtRS.ensureDir_idem3]

/-- C7 (witness): idempotence evaluated at a concrete configuration. -/
theorem C7_witness :
    DtRS.configure_acolite_directory
        (DtRS.configure_acolite_directory [] "b" "sentinel" 2021).2
        "b" "sentinel" 2021 =
      DtRS.configure_acolite_directory [] "b" "sentinel" 2021 :=
  C7_configure_idempotent [] "b" "sentinel" 2021 (Or.inl rfl)

/-- C8: orbit extraction on the example product name yields `R108`, and
tile extraction on the same string yields `T31UFU`. -/
theorem C8_extract_orbit_tile :
    DtRS.extract_orbit "S2A_MSIL1C_20220601T103629_N0400_R108_T31UFU_20220601T124224.SAFE"
        = some "R108" ∧
    DtRS.extract_tile "S2A_MSIL1C_20220601T103629_N0400_R108_T31UFU_20220601T124224.SAFE"
        = some "T31UFU" := by
  constructor <;> rfl

namespace DtRS

/-- A tile a zip suffix is appended to still ends with `.zip`. -/
theorem endswith_append_zip (n : String) : endswith (n ++ ".zip") ".zip" = true := by
  unfold endswith
  simp [String.data_append]

/-- `takeWhile` of a dotless list followed by a dot is the list. -/
theorem takeWhile_no_dot (l1 : List Char) (h : ∀ c ∈ l1, c ≠ '.') (rest : List Char) :
    (l1 ++ '.' :: rest).takeWhile (fun c => decide (c ≠ '.')) = l1 := by
  induction l1 with
  | nil => simp
  | cons c cs ih =>
    have hc : c ≠ '.' := h c (List.mem_cons_self _ _)
    have ih' := ih (fun x hx => h x (List.mem_cons_of_mem _ hx))
    simp only [decide_not] at ih' ⊢
    simp [hc, ih']

/-- Stripping at the first dot of `<Name>.zip` recovers a dotless Name. -/
theorem splitDot_append_zip {n : String} (h : ∀ c ∈ n.data, c ≠ '.') :
    splitDot (n ++ ".zip") = n := by
  unfold splitDot
  rw [String.data_append]
  have hz : (".zip").data = '.' :: 'z' :: 'i' :: 'p' :: [] := rfl
  rw [hz, takeWhile_no_dot n.data h]
  cases n
  rfl

/-- A dotless Name whose zip file is in the destination listing is
among the extension-stripped names. -/
theorem name_mem_files_in_dir {dirListing : List String} {n : String}
    (hnodot : ∀ c ∈ n.data, c ≠ '.') (hzip : (n ++ ".zip") ∈ dirListing) :
    n ∈ files_in_dir dirListing := by
  unfold files_in_dir
  refine List.mem_map.mpr ⟨n ++ ".zip", ?_, splitDot_append_zip hnodot⟩
  exact List.mem_filter.mpr ⟨hzip, endswith_append_zip n⟩

/-- The product request of a tile is among its processing actions. -/
theorem getTile_mem_processTile (env : DlEnv) (dir_path : String) (tile : Tile) :
    Act.getTile tile.Id ∈ processTile env dir_path tile := by
  unfold processTile
  simp

/-- Tiles kept by the download loop. -/
theorem mem_selectedTiles {dirListing : List String} {cat : CatResponse} {t : Tile}
    (h : t ∈ cat.value) (hs : (files_in_dir dirListing).contains t.Name = false) :
    t ∈ selectedTiles dirListing cat := by
  unfold selectedTiles
  refine List.mem_filter.mpr ⟨h, ?_⟩
  simp at hs ⊢
  exact hs

/-- The only actions a tile contributes. -/
theorem mem_processTile {a : Act} {env : DlEnv} {dir_path : String} {tile : Tile}
    (h : a ∈ processTile env dir_path tile) :
    a = Act.getTile tile.Id ∨ a = Act.postRefresh ∨ a = Act.mkDir "./inputdir/" ∨
    ∃ cs, a = Act.writeFile (fileStorePath dir_path tile.Name) cs := by
  unfold processTile at h
  simp only [List.append_assoc, List.cons_append, List.nil_append,
    List.mem_append, List.mem_cons, List.not_mem_nil, or_false, false_or] at h
  rcases h with h | h | h | h
  · exact Or.inl h
  · by_cases h1 : retry_statuses.contains (env.firstResp tile.Id).status = true
    · rw [if_pos h1] at h
      rcases List.mem_cons.mp h with h | h
      · exact Or.inr (Or.inl h)
      · exact Or.inl (by simpa using h)
    · rw [if_neg h1] at h
      exact absurd h (List.not_mem_nil a)
  · by_cases h2 : dir_path = ""
    · rw [if_pos h2] at h
      exact Or.inr (Or.inr (Or.inl (by simpa using h)))
    · rw [if_neg h2] at h
      exact absurd h (List.not_mem_nil a)
  · exact Or.inr (Or.inr (Or.inr ⟨_, h⟩))

/-- For a fixed directory, the tile file path determines the Name. -/
theorem fileStorePath_inj {dir_path n1 n2 : String}
    (h : fileStorePath dir_path n1 = fileStorePath dir_path n2) : n1 = n2 := by
  unfold fileStorePath at h
  by_cases hd : dir_path = "" <;> simp [hd] at h
  · have hdata := congrArg String.data h
    simp only [String.data_append] at hdata
    have h2 := List.append_cancel_left (List.append_cancel_right hdata)
    exact congrArg String.mk h2
  · have hdata := congrArg String.data h
    simp only [String.data_append] at hdata
    have h2 := List.append_cancel_left (List.append_cancel_right hdata)
    exact congrArg String.mk h2

end DtRS

/-- C2 (counterexample): tile Name `S2A.SAFE` contains a dot, so the
destination listing holding exactly `<Name>.zip` does not suppress the
download: the stripped listing entry is `S2A`, the tile is requested
and its file written again. -/
theorem C2_counterexample :
    DtRS.data_sentinel_request ⟨fun _ => ⟨200, []⟩, fun _ => ⟨200, []⟩⟩ "d" true
        ["S2A.SAFE" ++ ".zip"]
        ⟨[⟨"idX", "S2A.SAFE", "2022-06-01T00:00:00.000Z"⟩], none⟩ =
      Except.ok [DtRS.Act.getTile "idX",
        DtRS.Act.writeFile "d/S2A.SAFE.zip" []] := by rfl

/-- C2 (amended): for a tile whose Name contains no dot, a destination
directory already holding `<Name>.zip` makes the loop skip the entry:
no product request for its Id (unique to it) and no write of its tile
file appear among the actions. -/
theorem C2_skip_downloaded (env : DtRS.DlEnv) (dir_path : String) (dirExists : Bool)
    (dirListing : List String) (cat : DtRS.CatResponse) (tile : DtRS.Tile)
    (acts : List DtRS.Act)
    (hnodot : ∀ c ∈ tile.Name.data, c ≠ '.')
    (hzip : (tile.Name ++ ".zip") ∈ dirListing)
    (hid : ∀ t ∈ cat.value, t.Id = tile.Id → t.Name = tile.Name)
    (hrun : DtRS.data_sentinel_request env dir_path dirExists dirListing cat =
      Except.ok acts) :
    DtRS.Act.getTile tile.Id ∉ acts ∧
    ∀ cs, DtRS.Act.writeFile (DtRS.fileStorePath dir_path tile.Name) cs ∉ acts := by
  have hmem : tile.Name ∈ DtRS.files_in_dir dirListing :=
    DtRS.name_mem_files_in_dir hnodot hzip
  unfold DtRS.data_sentinel_request at hrun
  by_cases hall : cat.value.all (fun t => (DtRS.get_date t.OriginDate).isSome) = false
  · rw [if_pos hall] at hrun
    exact absurd hrun (by simp)
  · rw [if_neg hall] at hrun
    have hacts : acts =
        (if dirExists = false then [DtRS.Act.mkDir dir_path] else []) ++
          (DtRS.selectedTiles dirListing cat).flatMap (DtRS.processTile env dir_path) := by
      simpa using hrun.symm
    have hsel : ∀ t ∈ DtRS.selectedTiles dirListing cat, t.Name ≠ tile.Name := by
      intro t ht hname
      have h2 := (List.mem_filter.mp ht).2
      rw [hname] at h2
      simp at h2
      exact h2 hmem
    constructor
    · intro hin
      rw [hacts] at hin
      rcases List.mem_append.mp hin with hin | hin
      · by_cases hde : dirExists = false <;> simp [hde] at hin
      · obtain ⟨t, ht, hpt⟩ := List.mem_flatMap.mp hin
        rcases DtRS.mem_processTile hpt with h | h | h | ⟨cs, h⟩ <;>
          · have hidt : t.Id = tile.Id := by injection h.symm
            exact hsel t ht (hid t (List.mem_filter.mp ht).1 hidt)
    · intro cs hin
      rw [hacts] at hin
      rcases List.mem_append.mp hin with hin | hin
      · by_cases hde : dirExists = false <;> simp [hde] at hin
      · obtain ⟨t, ht, hpt⟩ := List.mem_flatMap.mp hin
        rcases DtRS.mem_processTile hpt with h | h | h | ⟨cs2, h⟩ <;>
          · have hpath : DtRS.fileStorePath dir_path t.Name =
                DtRS.fileStorePath dir_path tile.Name := by injection h.symm
            exact hsel t ht (DtRS.fileStorePath_inj hpath)

/-- C2 (witness): the amended skip evaluated on a dotless Name. -/
theorem C2_witness :
    DtRS.Act.getTile "idY" ∉
      [DtRS.Act.mkDir "d"] ∧
    ∀ cs, DtRS.Act.writeFile (DtRS.fileStorePath "d" "S2TILE") cs ∉
      [DtRS.Act.mkDir "d"] := by
  have h := C2_skip_downloaded ⟨fun _ => ⟨200, []⟩, fun _ => ⟨200, []⟩⟩ "d" false
    ["S2TILE" ++ ".zip"] ⟨[⟨"idY", "S2TILE", "2022-06-01T00:00:00.000Z"⟩], none⟩
    ⟨"idY", "S2TILE", "2022-06-01T00:00:00.000Z"⟩ [DtRS.Act.mkDir "d"]
    (by decide) (by simp) (by intro t ht _; simp at ht; rw [ht]) (by rfl)
  exact h

/-- C6: within `data_sentinel_request` (whose actions are the skip
filter followed by per-tile processing), a tile whose first response
status is 301/302/303/307/401 gets exactly one refresh-token POST and
exactly one retried request and nothing further; a tile whose first
response status is 400 gets no re-authentication, no retry and no
exception — its file is still written from the 400 response body. -/
theorem C6_single_retry (env : DtRS.DlEnv) (dir_path : String) (dirExists : Bool)
    (dirListing : List String) (cat : DtRS.CatResponse) (tile : DtRS.Tile)
    (hdates : cat.value.all (fun t => (DtRS.get_date t.OriginDate).isSome) = true) :
    DtRS.data_sentinel_request env dir_path dirExists dirListing cat =
      Except.ok ((if dirExists = false then [DtRS.Act.mkDir dir_path] else []) ++
        (DtRS.selectedTiles dirListing cat).flatMap (DtRS.processTile env dir_path)) ∧
    (DtRS.retry_statuses.contains (env.firstResp tile.Id).status = true →
      DtRS.processTile env dir_path tile =
        [DtRS.Act.getTile tile.Id, DtRS.Act.postRefresh, DtRS.Act.getTile tile.Id] ++
        (if dir_path = "" then [DtRS.Act.mkDir "./inputdir/"] else []) ++
        [DtRS.Act.writeFile (DtRS.fileStorePath dir_path tile.Name)
          ((env.retryResp tile.Id).chunks.filter (fun c => ¬ c = ""))]) ∧
    ((env.firstResp tile.Id).status = 400 →
      DtRS.processTile env dir_path tile =
        [DtRS.Act.getTile tile.Id] ++
        (if dir_path = "" then [DtRS.Act.mkDir "./inputdir/"] else []) ++
        [DtRS.Act.writeFile (DtRS.fileStorePath dir_path tile.Name)
          ((env.firstResp tile.Id).chunks.filter (fun c => ¬ c = ""))]) := by
  refine ⟨?_, ?_, ?_⟩
  · unfold DtRS.data_sentinel_request
    rw [if_neg (by simp [hdates])]
  · intro h1
    simp only [DtRS.processTile]
    rw [if_pos h1, if_pos h1]
    simp
  · intro h400
    simp [DtRS.processTile, h400, DtRS.retry_statuses]

/-- C6 (witness): a 401 first response on a concrete tile. -/
theorem C6_witness :
    DtRS.processTile ⟨fun _ => ⟨401, ["a"]⟩, fun _ => ⟨200, ["b", ""]⟩⟩ "d"
        ⟨"i", "n", "2022-06-01T00:00:00.000Z"⟩ =
      [DtRS.Act.getTile "i", DtRS.Act.postRefresh, DtRS.Act.getTile "i"] ++ [] ++
        [DtRS.Act.writeFile "d/n.zip" ["b"]] := by
  have h := (C6_single_retry ⟨fun _ => ⟨401, ["a"]⟩, fun _ => ⟨200, ["b", ""]⟩⟩ "d"
    true [] ⟨[], none⟩ ⟨"i", "n", "2022-06-01T00:00:00.000Z"⟩ (by rfl)).2.1 (by rfl)
  simpa using h

/-- C10: the download loop iterates over the whole `value` list, using
only the filename skip: any two catalogue entries whose acquisition
dates coincide and whose names are not in the destination listing are
both requested; the unique-by-date list never thins the downloads. -/
theorem C10_duplicate_dates_both_requested (env : DtRS.DlEnv) (dir_path : String)
    (dirExists : Bool) (dirListing : List String) (cat : DtRS.CatResponse)
    (t1 t2 : DtRS.Tile) (h1 : t1 ∈ cat.value) (h2 : t2 ∈ cat.value)
    (hdate : DtRS.get_date t1.OriginDate = DtRS.get_date t2.OriginDate)
    (hsk1 : (DtRS.files_in_dir dirListing).contains t1.Name = false)
    (hsk2 : (DtRS.files_in_dir dirListing).contains t2.Name = false)
    (hdates : cat.value.all (fun t => (DtRS.get_date t.OriginDate).isSome) = true) :
    ∃ acts, DtRS.data_sentinel_request env dir_path dirExists dirListing cat =
        Except.ok acts ∧
      DtRS.Act.getTile t1.Id ∈ acts ∧ DtRS.Act.getTile t2.Id ∈ acts := by
  have hmain : DtRS.data_sentinel_request env dir_path dirExists dirListing cat =
      Except.ok ((if dirExists = false then [DtRS.Act.mkDir dir_path] else []) ++
        (DtRS.selectedTiles dirListing cat).flatMap (DtRS.processTile env dir_path)) := by
    unfold DtRS.data_sentinel_request
    rw [if_neg (by simp [hdates])]
  refine ⟨_, hmain, ?_, ?_⟩
  · exact List.mem_append_right _ (List.mem_flatMap.mpr
      ⟨t1, DtRS.mem_selectedTiles h1 hsk1, DtRS.getTile_mem_processTile env dir_path t1⟩)
  · exact List.mem_append_right _ (List.mem_flatMap.mpr
      ⟨t2, DtRS.mem_selectedTiles h2 hsk2, DtRS.getTile_mem_processTile env dir_path t2⟩)

/-- C10 (witness): two tiles with the same OriginDate, both fetched. -/
theorem C10_witness :
    ∃ acts, DtRS.data_sentinel_request ⟨fun _ => ⟨200, []⟩, fun _ => ⟨200, []⟩⟩ "d" true []
        ⟨[⟨"id1", "n1", "2022-06-01T01:00:00.000Z"⟩,
          ⟨"id2", "n2", "2022-06-01T02:00:00.000Z"⟩], none⟩ =
        Except.ok acts ∧
      DtRS.Act.getTile "id1" ∈ acts ∧ DtRS.Act.getTile "id2" ∈ acts :=
  C10_duplicate_dates_both_requested ⟨fun _ => ⟨200, []⟩, fun _ => ⟨200, []⟩⟩ "d" true []
    ⟨[⟨"id1", "n1", "2022-06-01T01:00:00.000Z"⟩,
      ⟨"id2", "n2", "2022-06-01T02:00:00.000Z"⟩], none⟩
    ⟨"id1", "n1", "2022-06-01T01:00:00.000Z"⟩
    ⟨"id2", "n2", "2022-06-01T02:00:00.000Z"⟩
    (by simp) (by simp) (by rfl) (by rfl) (by rfl) (by rfl)

namespace DtRS

/-- A suffix avoiding `c` lies beyond an occurrence of `c`. -/
theorem suffix_append_cons {α : Type} (s f : List α) (c : α) (hc : c ∉ s) :
    ∀ d : List α, (s <:+ d ++ c :: f) ↔ s <:+ f := by
  intro d
  induction d with
  | nil =>
    rw [List.nil_append, List.suffix_cons_iff]
    constructor
    · rintro (h | h)
      · exact absurd (h ▸ List.mem_cons_self c f) hc
      · exact h
    · exact Or.inr
  | cons a d ih =>
    rw [List.cons_append, List.suffix_cons_iff]
    constructor
    · rintro (h | h)
      · exact absurd (h ▸ List.mem_cons_of_mem a (List.mem_append_right d
          (List.mem_cons_self c f))) hc
      · exact ih.mp h
    · intro h
      exact Or.inr (ih.mpr h)

/-- The `.zip` test on a `<dir>/<name>` path depends only on the name. -/
theorem endswith_path (dir f : String) :
    endswith (dir ++ "/" ++ f) ".zip" = endswith f ".zip" := by
  unfold endswith
  have hdata : (dir ++ "/" ++ f).data = dir.data ++ '/' :: f.data := by
    simp [String.data_append]
  rw [hdata]
  exact decide_eq_decide.mpr (suffix_append_cons _ _ _ (by decide) dir.data)

/-- `splitDotZ` walks over a character other than a dot. -/
theorem splitDotZ_cons {c : Char} (hc : c ≠ '.') :
    ∀ l, splitDotZ (c :: l) = c :: splitDotZ l := by
  intro l
  cases l with
  | nil => rfl
  | cons c2 cs =>
    simp only [splitDotZ]
    rw [if_neg (by simp [hc])]

/-- `splitDotZ` passes over a dotless prefix. -/
theorem splitDotZ_append (d : List Char) (hd : ∀ c ∈ d, c ≠ '.') :
    ∀ l, splitDotZ (d ++ l) = d ++ splitDotZ l := by
  induction d with
  | nil => intro l; simp
  | cons c cs ih =>
    intro l
    have hc : c ≠ '.' := hd c (List.mem_cons_self _ _)
    rw [List.cons_append, splitDotZ_cons hc,
      ih (fun x hx => hd x (List.mem_cons_of_mem _ hx)) l, List.cons_append]

/-- No `S2.*E` match can start at a character other than `S`. -/
theorem s2MatchAt_not_S {c : Char} (hc : c ≠ 'S') (cs : List Char) :
    s2MatchAt (c :: cs) = none := by
  cases cs with
  | nil => rfl
  | cons t rest => simp [s2MatchAt, hc]

/-- The `S2.*E` search passes over an `S`-free prefix. -/
theorem searchS2E_append (d : List Char) (hd : ∀ c ∈ d, c ≠ 'S') :
    ∀ l, searchS2E (d ++ l) = searchS2E l := by
  induction d with
  | nil => intro l; simp
  | cons c cs ih =>
    intro l
    have hc : c ≠ 'S' := hd c (List.mem_cons_self _ _)
    rw [List.cons_append]
    simp only [searchS2E, s2MatchAt_not_S hc]
    exact ih (fun x hx => hd x (List.mem_cons_of_mem _ hx)) l

/-- Over a clean directory prefix, the derived scene identifier of a
path is the one of the bare filename. -/
theorem scene_id_path (dir f : String)
    (hclean : ∀ c ∈ dir.data, c ≠ 'S' ∧ c ≠ '.') :
    searchS2E (splitDotZ (dir ++ "/" ++ f).data) = searchS2E (splitDotZ f.data) := by
  have hdata : (dir ++ "/" ++ f).data = (dir.data ++ ['/']) ++ f.data := by
    simp [String.data_append]
  have h1 : ∀ c ∈ dir.data ++ ['/'], c ≠ '.' := by
    intro c hcm
    rcases List.mem_append.mp hcm with hcm | hcm
    · exact (hclean c hcm).2
    · simp at hcm; subst hcm; decide
  have h2 : ∀ c ∈ dir.data ++ ['/'], c ≠ 'S' := by
    intro c hcm
    rcases List.mem_append.mp hcm with hcm | hcm
    · exact (hclean c hcm).1
    · simp at hcm; subst hcm; decide
  rw [hdata, splitDotZ_append _ h1, searchS2E_append _ h2]

/-- When every zip filename matches, the stager keeps exactly the
matching-and-absent archives. -/
theorem unzip_filter_all_match (outL : List String) (dir : String)
    (hclean : ∀ c ∈ dir.data, c ≠ 'S' ∧ c ≠ '.') :
    ∀ l : List String,
    (∀ f ∈ l, endswith f ".zip" = true → (searchS2E (splitDotZ f.data)).isSome = true) →
    unzip_scene_filter outL (l.map (fun f => dir ++ "/" ++ f)) =
      Except.ok ((l.filter (sceneKeep outL)).map (fun f => dir ++ "/" ++ f)) := by
  intro l
  induction l with
  | nil => intro _; rfl
  | cons f rest ih =>
    intro h
    have hrest := ih (fun x hx hz => h x (List.mem_cons_of_mem _ hx) hz)
    simp only [List.map_cons, unzip_scene_filter, List.filter_cons]
    by_cases hz : endswith f ".zip" = true
    · rw [if_pos (by rw [endswith_path]; exact hz)]
      have hsome := h f (List.mem_cons_self _ _) hz
      rw [scene_id_path dir f hclean]
      cases hm : searchS2E (splitDotZ f.data) with
      | none => rw [hm] at hsome; simp at hsome
      | some m =>
        simp only [hrest]
        by_cases hctn : outL.contains m.asString = false
        · rw [if_pos hctn]
          have hkeep : sceneKeep outL f = true := by
            simp [sceneKeep, hz, hm]
            simpa using hctn
          rw [if_pos hkeep]
          simp
        · rw [if_neg hctn]
          have hkeep : sceneKeep outL f = false := by
            simp [sceneKeep, hz, hm]
            simpa using hctn
          rw [if_neg (by simp [hkeep])]
    · rw [if_neg (by rw [endswith_path]; simpa using hz)]
      have hkeep : sceneKeep outL f = false := by
        simp [sceneKeep]
        intro hz2
        exact absurd hz2 hz
      rw [if_neg (by simp [hkeep])]
      exact hrest

/-- A zip filename with no `S2.*E` match makes the stager raise. -/
theorem unzip_filter_error (outL : List String) (dir : String)
    (hclean : ∀ c ∈ dir.data, c ≠ 'S' ∧ c ≠ '.') :
    ∀ l : List String,
    (∃ f ∈ l, endswith f ".zip" = true ∧ searchS2E (splitDotZ f.data) = none) →
    unzip_scene_filter outL (l.map (fun f => dir ++ "/" ++ f)) = Except.error () := by
  intro l
  induction l with
  | nil =>
    rintro ⟨f, hf, _⟩
    simp at hf
  | cons f rest ih =>
    rintro ⟨g, hg, hgz, hgn⟩
    simp only [List.map_cons, unzip_scene_filter]
    rcases List.mem_cons.mp hg with rfl | hg'
    · rw [if_pos (by rw [endswith_path]; exact hgz)]
      rw [scene_id_path dir g hclean, hgn]
    · by_cases hz : endswith f ".zip" = true
      · rw [if_pos (by rw [endswith_path]; exact hz)]
        rw [scene_id_path dir f hclean]
        cases hm : searchS2E (splitDotZ f.data) with
        | none => rfl
        | some m => rw [ih ⟨g, hg', hgz, hgn⟩]
      · rw [if_neg (by rw [endswith_path]; simpa using hz)]
        exact ih ⟨g, hg', hgz, hgn⟩

end DtRS

/-- C4: over a raw directory whose path holds no `S` and no dot, when
every listed `.zip` filename matches the `S2.*E` scene pattern the
stager extracts exactly the archives whose derived identifier is not
yet an entry of the output directory; and when some listed `.zip`
filename has no match (e.g. a Landsat archive name) the stager raises
an unhandled error. -/
theorem C4_unzip_inputfiles_spec (listing : String → List String)
    (inputdir outputdir : String)
    (hclean : ∀ c ∈ inputdir.data, c ≠ 'S' ∧ c ≠ '.') :
    ((∀ f ∈ listing inputdir, DtRS.endswith f ".zip" = true →
        (DtRS.searchS2E (DtRS.splitDotZ f.data)).isSome = true) →
      DtRS.unzip_inputfiles listing inputdir (some outputdir) =
        Except.ok (((listing inputdir).filter
            (DtRS.sceneKeep (listing outputdir))).map
          (fun f => inputdir ++ "/" ++ f))) ∧
    ((∃ f ∈ listing inputdir, DtRS.endswith f ".zip" = true ∧
        DtRS.searchS2E (DtRS.splitDotZ f.data) = none) →
      DtRS.unzip_inputfiles listing inputdir (some outputdir) = Except.error ()) := by
  constructor
  · intro h
    unfold DtRS.unzip_inputfiles
    exact DtRS.unzip_filter_all_match _ _ hclean _ h
  · intro h
    unfold DtRS.unzip_inputfiles
    exact DtRS.unzip_filter_error _ _ hclean _ h

/-- C4 (witness): a Sentinel-2 archive is extracted, a `readme.txt` is
ignored, and a Landsat archive name raises. -/
theorem C4_witness :
    DtRS.unzip_inputfiles
        (fun d => if d = "/data/raw" then ["S2A_MSIL1C_T31UFU.SAFE.zip", "readme.txt"]
                  else [])
        "/data/raw" (some "/data/out") =
      Except.ok ["/data/raw/S2A_MSIL1C_T31UFU.SAFE.zip"] ∧
    DtRS.unzip_inputfiles
        (fun d => if d = "/data/raw" then ["LC08_L1TP_199024.zip"] else [])
        "/data/raw" (some "/data/out") = Except.error () := by
  constructor
  · have h := (C4_unzip_inputfiles_spec
      (fun d => if d = "/data/raw" then ["S2A_MSIL1C_T31UFU.SAFE.zip", "readme.txt"]
                else [])
      "/data/raw" "/data/out" (by decide)).1 (by decide)
    exact h.trans (by rfl)
  · exact (C4_unzip_inputfiles_spec
      (fun d => if d = "/data/raw" then ["LC08_L1TP_199024.zip"] else [])
      "/data/raw" "/data/out" (by decide)).2
      ⟨"LC08_L1TP_199024.zip", by simp, by decide, by rfl⟩

/-- C9: for a validated query, a `max_results` outside `(0, 1000]`
leaves the run identical to one with no cap — the issued query URL is
the bare endpoint URL with no `$top` suffix and no error arises from
the cap — while a `max_results` in `(0, 1000]` makes the issued query
URL carry `&$top=<max_results>`. -/
theorem C9_top_param (env : String → DtRS.CatResponse) (fuel : Nat)
    (sd ed dc aoi pt cc : String) (m : Int) (s e : Nat × Nat × Nat)
    (hs : DtRS.parseDate sd = some s) (he : DtRS.parseDate ed = some e)
    (hlt : DtRS.dateLt s e = true)
    (hdc : DtRS.copernicus_catalogue.contains dc = true) :
    (¬ (0 < m ∧ m ≤ 1000) →
      DtRS.get_sentinel_catalogue env fuel sd ed dc aoi pt cc (some m) =
        DtRS.get_sentinel_catalogue env fuel sd ed dc aoi pt cc none ∧
      (DtRS.get_sentinel_catalogue env fuel sd ed dc aoi pt cc (some m)).2.head? =
        some (DtRS.catalogue_endpoint_url dc aoi pt cc sd ed)) ∧
    ((0 < m ∧ m ≤ 1000) →
      (DtRS.get_sentinel_catalogue env fuel sd ed dc aoi pt cc (some m)).2.head? =
        some (DtRS.catalogue_endpoint_url dc aoi pt cc sd ed ++
          ("&$top=" ++ toString m))) := by
  have hdc' : dc ∈ DtRS.copernicus_catalogue := by simpa using hdc
  constructor
  · intro hm
    have htop : DtRS.top_suffix (some m) = "" := by simp [DtRS.top_suffix, hm]
    constructor
    · have htopn : DtRS.top_suffix none = "" := rfl
      simp [DtRS.get_sentinel_catalogue, htop, htopn]
    · simp only [DtRS.get_sentinel_catalogue, hs, he, hlt, if_true, htop]
      rw [if_pos (by simpa using hdc')]
      rw [String.append_empty]
      cases hfn : (DtRS.followNext env fuel
          (env (DtRS.catalogue_endpoint_url dc aoi pt cc sd ed))).1 <;> simp [hfn]
  · intro hm
    have htop : DtRS.top_suffix (some m) = "&$top=" ++ toString m := by
      simp [DtRS.top_suffix, hm]
    simp only [DtRS.get_sentinel_catalogue, hs, he, hlt, if_true, htop]
    rw [if_pos (by simpa using hdc')]
    cases hfn : (DtRS.followNext env fuel
        (env (DtRS.catalogue_endpoint_url dc aoi pt cc sd ed ++
          ("&$top=" ++ toString m)))).1 <;> simp [hfn]

/-- C9 (witness): the cap `2000` lies outside `(0, 1000]`, so the
issued URL is the bare endpoint URL. -/
theorem C9_witness :
    (DtRS.get_sentinel_catalogue (fun _ => ⟨[], none⟩) 1 "2022-06-01" "2022-06-10"
        "SENTINEL-2" "aoi" "S2MSI1C" "10.0" (some 2000)).2.head? =
      some (DtRS.catalogue_endpoint_url "SENTINEL-2" "aoi" "S2MSI1C" "10.0"
        "2022-06-01" "2022-06-10") :=
  ((C9_top_param (fun _ => ⟨[], none⟩) 1 "2022-06-01" "2022-06-10" "SENTINEL-2"
      "aoi" "S2MSI1C" "10.0" 2000 (2022, 6, 1) (2022, 6, 10) rfl rfl rfl rfl).1
    (by decide)).2
